import Mathlib

/-!
Verification of the ASK (Kosovo Agency of Statistics) API wrapper,
`ask_api.py`.  The Python class `ASK` is shallowly embedded: its mutable
instance state becomes the structure `AskApi.ASK`, its methods become pure
state-passing functions, Python exceptions become `Except`, and `None`
results become `Option`.  Library calls (`pandas.to_datetime`,
`pandas.date_range(freq='M')`, `str.lower`, `int(...)`, list slicing) are
modelled explicitly on the input shapes the wrapper feeds them.
-/

namespace AskApi

/-! ### Python string primitives -/

/-- Model of Python `str.lower()` restricted to the alphabet actually used by
the municipality registry: ASCII letters plus the two uppercase diacritics
`Ç` and `Ë` occurring in registry names.  Other characters are unchanged. -/
def pyLowerChar (c : Char) : Char :=
  if 'A' ≤ c ∧ c ≤ 'Z' then Char.ofNat (c.toNat + 32)
  else if c = 'Ç' then 'ç'
  else if c = 'Ë' then 'ë'
  else c

/-- Python `s.lower()` (character-wise, see `pyLowerChar`). -/
def pyLower (s : String) : String := ⟨s.data.map pyLowerChar⟩

/-- Python `s.replace(old, new)` for a single-character pattern: replaces
every occurrence.  Models `str.replace('M', '-')`. -/
def pyReplaceChar (s : String) (oldc newc : Char) : String :=
  ⟨s.data.map (fun c => if c = oldc then newc else c)⟩

/-- Python string comparison `s₁ <= s₂` on the underlying character lists:
lexicographic by code point, a proper prefix precedes its extensions. -/
def pyStrLeB : List Char → List Char → Bool
  | [], _ => true
  | _ :: _, [] => false
  | a :: as, b :: bs => if a < b then true else if b < a then false else pyStrLeB as bs

/-- Python `s₁ <= s₂` on strings. -/
def strLeB (s₁ s₂ : String) : Bool := pyStrLeB s₁.data s₂.data

/-! ### Municipality registry (`ASK.__init__`) -/

/-- The fixed code-to-name dictionary `self.municipality_map`, in insertion
order.  All keys are distinct, so association-list lookup coincides with
Python dict lookup. -/
def municipality_map : List (String × String) :=
  [("0", "Deçan"), ("1", "Gjakovë"), ("2", "Gllogoc"), ("3", "Gjilan"),
   ("4", "Dragash"), ("5", "Istog"), ("6", "Kaçanik"), ("7", "Klinë"),
   ("8", "Fushë Kosovë"), ("9", "Kamenicë"), ("10", "Mitrovicë"),
   ("11", "Leposaviq"), ("12", "Lipjan"), ("13", "Novobërdë"),
   ("14", "Obiliq"), ("15", "Rahovec"), ("16", "Pejë"), ("17", "Podujevë"),
   ("18", "Prishtinë"), ("19", "Prizren"), ("20", "Skenderaj"),
   ("21", "Shtime"), ("22", "Shtërpcë"), ("23", "Suharekë"),
   ("24", "Ferizaj"), ("25", "Viti"), ("26", "Vushtrri"),
   ("27", "Zubin Potok"), ("28", "Zveqan"), ("29", "Malishevë"),
   ("30", "Junik"), ("31", "Mamushë"), ("32", "Hani i Elezit"),
   ("33", "Graçanicë"), ("34", "Ranillug"), ("35", "Partesh"),
   ("36", "Kllokot"), ("37", "Mitrovicë Veriore"), ("38", "Jashtë Kosovës"),
   ("39", "Gjithsej")]

/-- Python `dict.get(k)` on an insertion-ordered dict modelled as an
association list with distinct keys: first (= only) match. -/
def dictGet (d : List (String × String)) (k : String) : Option String :=
  (d.find? (fun p => p.1 = k)).map (fun p => p.2)

/-- The dict comprehension
`self.municipality_reverse_map = {v.lower(): k for k, v in self.municipality_map.items()}`.
The lower-cased names are pairwise distinct, so the comprehension never
overwrites an entry and the association list below has distinct keys. -/
def municipality_reverse_map : List (String × String) :=
  municipality_map.map (fun p => (pyLower p.2, p.1))

/-- `ASK.get_municipality_code`: case-insensitive name-to-code lookup,
`self.municipality_reverse_map.get(municipality.lower())`. -/
def get_municipality_code (municipality : String) : Option String :=
  dictGet municipality_reverse_map (pyLower municipality)

/-! ### Client state and path navigation -/

/-- One entry of the `"query"` list:
`{"code": ..., "selection": {"filter": ..., "values": [...]}}`. -/
structure Selection where
  code : String
  filter : String
  values : List String
deriving DecidableEq, Repr

/-- The query object `self.query = {"query": [...], "response": {"format": "json"}}`. -/
structure Query where
  query : List Selection
  format : String
deriving DecidableEq, Repr

/-- The query value installed by `__init__` and by `clear_query`. -/
def emptyQuery : Query := ⟨[], "json"⟩

/-- Mutable instance state of the `ASK` class (the parts the claims are
about): `self.current_path` and `self.query`.  The municipality maps are
fixed at construction and modelled as the constants above. -/
structure ASK where
  current_path : List String
  query : Query
deriving DecidableEq, Repr

/-- A freshly constructed client (`ASK.__init__`): empty path, empty query. -/
def ASK.init : ASK := ⟨[], emptyQuery⟩

/-- `ASK.go_down(*args)`: `self.current_path.extend(list(args))`. -/
def go_down (st : ASK) (args : List String) : ASK :=
  { st with current_path := st.current_path ++ args }

/-- Python list slicing `l[:stop]` for an arbitrary integer `stop`:
a negative `stop` counts from the end (clamped at 0), a non-negative `stop`
takes a prefix of that length (clamped at the list length). -/
def pySliceTo {α : Type} (l : List α) (stop : Int) : List α :=
  if stop < 0 then l.take (l.length - (-stop).toNat) else l.take stop.toNat

/-- `ASK.go_up(levels)`: `self.current_path = self.current_path[:-levels]`. -/
def go_up (st : ASK) (levels : Int) : ASK :=
  { st with current_path := pySliceTo st.current_path (-levels) }

/-- `ASK.clear_query`: reinstall the default query object. -/
def clear_query (st : ASK) : ASK :=
  { st with query := emptyQuery }

/-- Boolean form of the CatalogPath invariant: no segment of the current
path is the empty string. -/
def pathOk (st : ASK) : Bool := st.current_path.all (fun s => !(s == ""))


/-! ### Dates and period tokens (`set_query`'s date handling) -/

/-- A pandas `Timestamp` at day granularity (year, month, day). -/
structure PyDate where
  year : Nat
  month : Nat
  day : Nat
deriving DecidableEq, Repr

/-- Chronological comparison of dates (lexicographic on year, month, day). -/
def dateLE (a b : PyDate) : Bool :=
  decide (a.year < b.year) ||
    (a.year == b.year &&
      (decide (a.month < b.month) || (a.month == b.month && decide (a.day ≤ b.day))))

/-- Gregorian leap-year test. -/
def isLeap (y : Nat) : Bool := y % 4 == 0 && (y % 100 != 0 || y % 400 == 0)

/-- Number of days of month `m` of year `y`. -/
def daysInMonth (y m : Nat) : Nat :=
  if m = 2 then (if isLeap y then 29 else 28)
  else if m = 4 ∨ m = 6 ∨ m = 9 ∨ m = 11 then 30
  else 31

/-- The last calendar day of month `m` of year `y`. -/
def monthEnd (y m : Nat) : PyDate := ⟨y, m, daysInMonth y m⟩

/-- Model of `pandas.date_range(start, end, freq='M')`: the chronological
sequence of month-END dates `d` with `start ≤ d ≤ end`, returned as
(year, month) pairs.  A month whose last day falls outside the closed
interval produces no entry — in particular the end month is dropped when
`end` is its first day. -/
def dateRangeM (s e : PyDate) : List (Nat × Nat) :=
  let sIdx := s.year * 12 + (s.month - 1)
  let eIdx := e.year * 12 + (e.month - 1)
  ((List.range (eIdx + 1 - sIdx)).map (fun i => sIdx + i)).filterMap (fun idx =>
    let y := idx / 12
    let m := idx % 12 + 1
    if dateLE s (monthEnd y m) && dateLE (monthEnd y m) e then some (y, m) else none)

/-- Python `str(n).zfill(k)`-style zero padding of a numeral string. -/
def zfill (n : Nat) (s : String) : String :=
  ⟨List.replicate (n - s.data.length) '0' ++ s.data⟩

/-- `d.strftime('%YM%m')`: 4-digit zero-padded year, literal `M`,
2-digit zero-padded month. -/
def strftimeYM (y m : Nat) : String :=
  zfill 4 (Nat.repr y) ++ "M" ++ zfill 2 (Nat.repr m)

/-- The list comprehension for `year`:
`[f"{year_str}M{str(m).zfill(2)}" for m in range(1, 13)]` (the year is NOT
zero-padded here, unlike in `strftime`). -/
def yearTokens (y : Nat) : List String :=
  (List.range 12).map (fun i => Nat.repr y ++ "M" ++ zfill 2 (Nat.repr (i + 1)))

/-- The tokens contributed by a start/end date pair:
`[d.strftime('%YM%m') for d in pd.date_range(start, end, freq='M')]`. -/
def rangeTokens (s e : PyDate) : List String :=
  (dateRangeM s e).map (fun p => strftimeYM p.1 p.2)

/-- `sorted(list(set(l)))` for Python strings: deduplicate, then sort
lexicographically by code point. -/
def sortedDedup (l : List String) : List String :=
  List.insertionSort (fun a b => strLeB a b = true) l.eraseDups

/-- Parser for `"YYYY-MM"` year-month strings, as `strptime('%Y-%m')` reads
them: one to four year digits, a dash, one or two month digits in `1..12`,
end of input. -/
def parseYM (s : String) : Option (Nat × Nat) :=
  let cs := s.data
  let yd := (cs.take 4).takeWhile Char.isDigit
  if yd.isEmpty then none
  else
    match cs.drop yd.length with
    | '-' :: rest =>
      let md := (rest.take 2).takeWhile Char.isDigit
      if md.isEmpty then none
      else if ¬ (rest.drop md.length).isEmpty then none
      else
        let m := md.foldl (fun a c => a * 10 + (c.toNat - 48)) 0
        if 1 ≤ m ∧ m ≤ 12 then
          some (yd.foldl (fun a c => a * 10 + (c.toNat - 48)) 0, m)
        else none
    | _ => none

/-- `pandas.to_datetime` restricted to the `"YYYY-MM"` inputs `set_query`'s
documentation prescribes: the first day of the given month. -/
def to_datetimeYM (s : String) : Option PyDate :=
  (parseYM s).map (fun p => ⟨p.1, p.2, 1⟩)

/-- `self.query["query"].append(sel)`. -/
def add_selection (st : ASK) (sel : Selection) : ASK :=
  { st with query := { st.query with query := st.query.query ++ [sel] } }

/-- `ASK.set_query(municipalities, months, year, start_date, end_date)`.
Python's optional arguments are modelled as lists (`None` = `[]`, a single
string = a one-element list) and `Option`s; `start_date`/`end_date` appear
as one optional pre-parsed pair since the code uses them only when both are
given (`if start_date and end_date:`), and `year=0` is falsy in Python so it
is guarded like `None`.  Returns the new state together with the list of
"Municipality ... not found" warnings printed.  The outer
`if municipalities:` and `if months:` truthiness guards of the source are
no-ops (an empty list contributes no codes, no warnings and no tokens) and
are therefore not reproduced as branches. -/
def set_query (st : ASK) (municipalities : List String) (months : List String)
    (year : Option Nat) (startEnd : Option (PyDate × PyDate)) : ASK × List String :=
  let st1 := clear_query st
  let municipality_codes := municipalities.filterMap get_municipality_code
  let warnings := municipalities.filter (fun m => (get_municipality_code m).isNone)
  let st2 :=
    if municipality_codes ≠ [] then
      add_selection st1 ⟨"Komuna", "item", municipality_codes⟩
    else st1
  let dv1 := months
  let dv2 := dv1 ++ (match year with
    | some y => if y ≠ 0 then yearTokens y else []
    | none => [])
  let dv3 := dv2 ++ (match startEnd with
    | some (s, e) => rangeTokens s e
    | none => [])
  let st3 :=
    if dv3 ≠ [] then
      add_selection st2 ⟨"Viti-muaji", "item", sortedDedup dv3⟩
    else st2
  (st3, warnings)


/-! ### Result normalization (`get_data_as_df`) -/

/-- Python `str.strip()`: drop whitespace from both ends. -/
def pyStrip (cs : List Char) : List Char :=
  ((cs.dropWhile Char.isWhitespace).reverse.dropWhile Char.isWhitespace).reverse

/-- Validity of the tail of a Python integer literal: digits, with single
underscores allowed only between digits. -/
def pyIntRest : List Char → Bool
  | [] => true
  | ['_'] => false
  | '_' :: c :: rest => c.isDigit && pyIntRest rest
  | c :: rest => c.isDigit && pyIntRest rest

/-- Validity of a (sign-free) Python integer literal body: at least one
digit, underscores only between digits. -/
def pyIntBody : List Char → Bool
  | [] => false
  | c :: rest => c.isDigit && pyIntRest rest

/-- Numeric value of a digit list, most significant first. -/
def natOfDigits (ds : List Char) : Nat :=
  ds.foldl (fun a c => a * 10 + (c.toNat - 48)) 0

/-- Python `int(s)` on a string: strip whitespace, optional sign, then a
digit sequence possibly grouped by single underscores; `none` models the
`ValueError` raised on anything else. -/
def pyInt (s : String) : Option Int :=
  match pyStrip s.data with
  | '+' :: r =>
    if pyIntBody r then some ((natOfDigits (r.filter (fun c => c ≠ '_')) : Nat) : Int) else none
  | '-' :: r =>
    if pyIntBody r then some (-((natOfDigits (r.filter (fun c => c ≠ '_')) : Nat) : Int)) else none
  | r =>
    if pyIntBody r then some ((natOfDigits (r.filter (fun c => c ≠ '_')) : Nat) : Int) else none

/-- One row of the raw JSON response:
`{"key": [period, municipalityCode], "values": [stringValue]}` (list
lengths are not trusted — indexing is modelled fallibly). -/
structure RawItem where
  key : List String
  values : List String
deriving DecidableEq, Repr

/-- The raw JSON response dict.  `data` is the value of the `'data'` key if
present; `otherKeys` records whether the dict carries any other key, which
is what Python's truthiness check `if not data:` on the whole dict sees. -/
structure RawResponse where
  data : Option (List RawItem)
  otherKeys : Bool
deriving DecidableEq, Repr

/-- The Python exceptions `get_data_as_df` can raise: `KeyError` (missing
dict key, including pandas' missing `'Date'` column on an empty frame),
`IndexError` (short `key`/`values` lists), `ValueError` from `int(...)`,
and the pandas parse error from `to_datetime(..., format='%Y-%m')`. -/
inductive Err where
  | keyError (k : String)
  | indexError
  | valueError
  | dateError
deriving DecidableEq, Repr

/-- A row after the transformation loop, the date still the raw period
token (the `rows.append({...})` dict). -/
structure Rec0 where
  date : String
  code : String
  muni : String
  marriages : Option Int
deriving DecidableEq, Repr

/-- A fully normalized record: the date parsed to (year, month) — the first
of the month — plus municipality code, display name, and optional count. -/
structure Rec where
  date : Nat × Nat
  code : String
  muni : String
  marriages : Option Int
deriving DecidableEq, Repr

/-- `self.municipality_map.get(code, f'Unknown ({code})')`. -/
def municipalityName (code : String) : String :=
  (dictGet municipality_map code).getD ("Unknown (" ++ code ++ ")")

/-- One iteration of the `for item in data['data']:` loop: fallible key and
value extraction, the `':'` missing-value sentinel mapped to an absent
count, any other value put through `int(...)`. -/
def processItem (item : RawItem) : Except Err Rec0 :=
  match item.key[0]? with
  | none => .error .indexError
  | some date =>
    match item.key[1]? with
    | none => .error .indexError
    | some code =>
      match item.values[0]? with
      | none => .error .indexError
      | some v =>
        if v = ":" then .ok ⟨date, code, municipalityName code, none⟩
        else
          match pyInt v with
          | none => .error .valueError
          | some n => .ok ⟨date, code, municipalityName code, some n⟩

/-- Left-to-right effectful map over a list: the first failing element
aborts the whole computation (Python's exception propagation out of the
loop / out of a column-wise pandas operation). -/
def mapE {α β : Type} (f : α → Except Err β) : List α → Except Err (List β)
  | [] => .ok []
  | a :: l =>
    match f a with
    | .error e => .error e
    | .ok b =>
      match mapE f l with
      | .error e => .error e
      | .ok bs => .ok (b :: bs)

/-- The column conversion
`pd.to_datetime(df['Date'].str.replace('M', '-'), format='%Y-%m')`
applied to one row. -/
def convertDate (r : Rec0) : Except Err Rec :=
  match parseYM (pyReplaceChar r.date 'M' '-') with
  | none => .error .dateError
  | some ym => .ok ⟨ym, r.code, r.muni, r.marriages⟩

/-- The sort key order of `df.sort_values(['Date', 'Municipality'])`:
by parsed date, then by display name (Python string order). -/
def recLeB (a b : Rec) : Bool :=
  decide (a.date.1 < b.date.1) ||
    (a.date.1 == b.date.1 &&
      (decide (a.date.2 < b.date.2) || (a.date.2 == b.date.2 && strLeB a.muni b.muni)))

/-- Propositional form of `recLeB`, the relation the final sort uses. -/
def RecLE (a b : Rec) : Prop := recLeB a b = true

instance : DecidableRel RecLE :=
  fun a b => inferInstanceAs (Decidable (recLeB a b = true))

/-- The normalization pipeline applied to the row list `data['data']`: the
transformation loop, then (as pandas does) the `Date` column conversion —
which on an EMPTY row list raises `KeyError('Date')`, since
`pd.DataFrame([])` has no columns — then the stable sort by
(date, municipality name).  `sort_values` with a column list uses
`np.lexsort`, a stable sort, which insertion sort models exactly. -/
def normalize (items : List RawItem) : Except Err (List Rec) :=
  match mapE processItem items with
  | .error e => .error e
  | .ok rows =>
    if rows.isEmpty then .error (.keyError "Date")
    else
      match mapE convertDate rows with
      | .error e => .error e
      | .ok recs => .ok (List.insertionSort RecLE recs)

/-- `ASK.get_data_as_df`, starting from the fetched response
(`data = self.get_data()`, `none` = transport failure): the falsy check
`if not data: return None` (an empty dict is falsy), then `data['data']`
(`KeyError('data')` if absent), then `normalize`. -/
def get_data_as_df (fetched : Option RawResponse) : Option (Except Err (List Rec)) :=
  match fetched with
  | none => none
  | some raw =>
    if raw.data = none ∧ raw.otherKeys = false then none
    else
      match raw.data with
      | none => some (.error (.keyError "data"))
      | some items => some (normalize items)


instance exceptDecEq {ε α : Type} [DecidableEq ε] [DecidableEq α] : DecidableEq (Except ε α) :=
  fun a b =>
    match a, b with
    | .ok x, .ok y =>
      if h : x = y then isTrue (by rw [h]) else isFalse (fun hc => h (Except.ok.inj hc))
    | .error e, .error f =>
      if h : e = f then isTrue (by rw [h]) else isFalse (fun hc => h (Except.error.inj hc))
    | .ok _, .error _ => isFalse (fun hc => Except.noConfusion hc)
    | .error _, .ok _ => isFalse (fun hc => Except.noConfusion hc)


/-! ### Claims about navigation (C6, C8, C9) and the codec (C10) -/

/-- C9: for every client state, `go_up(levels=0)` resets the path to root
(removes every segment) rather than leaving it unchanged, because
`path[:-0]` is `path[:0]`, the empty prefix. -/
theorem go_up_zero_resets (st : ASK) : (go_up st 0).current_path = [] := rfl

/-- C6 counterexample: the claim says `go_up` with a `levels` value not
exceeding the current depth removes exactly that many trailing segments.
At `levels = 0` on the one-segment path `["a"]` (0 does not exceed depth 1)
the code clears the whole path instead of removing zero segments, so the
claim as stated is false at this input. -/
theorem go_up_zero_not_noop :
    (go_up ⟨["a"], emptyQuery⟩ 0).current_path = [] ∧ (["a"] : List String) ≠ [] :=
  ⟨rfl, by decide⟩

/-- C6 (amended to `levels ≥ 1`, the case `levels = 0` being settled by the
counterexample and by C9): for every path state and every `levels ≥ 1`,
`go_up` clamps to root when `levels` exceeds the current depth — never a
negative-length or error state — and otherwise removes exactly `levels`
trailing segments. -/
theorem go_up_clamps (st : ASK) (levels : Int) (h : 1 ≤ levels) :
    ((st.current_path.length : Int) < levels → (go_up st levels).current_path = []) ∧
    (levels ≤ (st.current_path.length : Int) →
      (go_up st levels).current_path =
        st.current_path.take (st.current_path.length - levels.toNat)) := by
  have hneg : (-levels) < 0 := by omega
  constructor
  · intro hlt
    simp only [go_up, pySliceTo, if_pos hneg, neg_neg]
    have hz : st.current_path.length - levels.toNat = 0 := by omega
    rw [hz, List.take_zero]
  · intro _
    simp only [go_up, pySliceTo, if_pos hneg, neg_neg]

theorem go_up_clamps_witness :
    (go_up ⟨["a", "b", "c"], emptyQuery⟩ 5).current_path = [] ∧
    (go_up ⟨["a", "b", "c"], emptyQuery⟩ 2).current_path = ["a"] := by
  refine ⟨(go_up_clamps ⟨["a", "b", "c"], emptyQuery⟩ 5 (by decide)).1 (by decide), ?_⟩
  have h := (go_up_clamps ⟨["a", "b", "c"], emptyQuery⟩ 2 (by decide)).2 (by decide)
  simpa using h

/-- C8 counterexample: `go_down` performs no validation of its segment
arguments, so descending with the empty-string segment from the root
breaks the "no empty segments" invariant. -/
theorem go_down_empty_segment : pathOk (go_down ASK.init [""]) = false := rfl

/-- C8 (amended): the "no empty or null segments" path invariant is
preserved by `go_up` for every `levels` argument, and by `go_down`
whenever the supplied segments are themselves nonempty; `go_down` itself
never filters or validates, so a caller passing an empty segment violates
the invariant (see the counterexample). -/
theorem nav_preserves_pathOk (st : ASK) (args : List String) (levels : Int)
    (hst : pathOk st = true) (hargs : args.all (fun s => !(s == "")) = true) :
    pathOk (go_down st args) = true ∧ pathOk (go_up st levels) = true := by
  constructor
  · simp only [pathOk, go_down, List.all_append, Bool.and_eq_true]
    exact ⟨hst, hargs⟩
  · simp only [pathOk, go_up, pySliceTo] at hst ⊢
    rw [List.all_eq_true] at hst ⊢
    split
    · intro x hx; exact hst x (List.take_subset _ _ hx)
    · intro x hx; exact hst x (List.take_subset _ _ hx)

theorem nav_preserves_pathOk_witness :
    pathOk (go_down ASK.init ["Population", "Marriages"]) = true ∧
    pathOk (go_up ASK.init 1) = true :=
  nav_preserves_pathOk ASK.init ["Population", "Marriages"] 1 (by decide) (by decide)

/-- C10: for every `(code, name)` entry of the municipality registry,
resolving the code's display name through the case-insensitive reverse
lookup `get_municipality_code` recovers the original code. -/
theorem municipality_roundtrip :
    ∀ p ∈ municipality_map, get_municipality_code p.2 = some p.1 := by decide

theorem municipality_roundtrip_witness :
    get_municipality_code "Prishtinë" = some "18" :=
  municipality_roundtrip ("18", "Prishtinë") (by decide)


/-! ### Claims about query building (C1, C4, C5) -/

/-- C1: the claim (and the spec) require one token per calendar month of the
INCLUSIVE start..end range, regardless of day-of-month, so that
`startDate="2023-01", endDate="2023-03"` yields `2023M01, 2023M02, 2023M03`.
The code instead enumerates month-END dates inside the closed interval
(`pd.date_range(..., freq='M')`), so with both boundaries parsed to the
first of their month the end month's token `2023M03` is missing — while
moving the end boundary to `2023-03-31` makes it reappear, showing the
result does depend on the day-of-month.  This theorem evaluates the
embedded code at exactly that failing input. -/
theorem period_range_drops_end_month :
    to_datetimeYM "2023-01" = some ⟨2023, 1, 1⟩ ∧
    to_datetimeYM "2023-03" = some ⟨2023, 3, 1⟩ ∧
    (set_query ASK.init [] [] none (some (⟨2023, 1, 1⟩, ⟨2023, 3, 1⟩))).1.query.query =
      [⟨"Viti-muaji", "item", ["2023M01", "2023M02"]⟩] ∧
    (set_query ASK.init [] [] none (some (⟨2023, 1, 1⟩, ⟨2023, 3, 31⟩))).1.query.query =
      [⟨"Viti-muaji", "item", ["2023M01", "2023M02", "2023M03"]⟩] := by
  refine ⟨rfl, rfl, by decide, by decide⟩

/-- C4: the query built by `set_query` depends only on the arguments of that
call — after any prior state (hence after any earlier `set_query`) the
resulting query, and the warning list, are the same as on a freshly
constructed client, because `set_query` first runs `clear_query`. -/
theorem set_query_state_independent (st : ASK) (municipalities months : List String)
    (year : Option Nat) (startEnd : Option (PyDate × PyDate)) :
    (set_query st municipalities months year startEnd).1.query =
      (set_query ASK.init municipalities months year startEnd).1.query ∧
    (set_query st municipalities months year startEnd).2 =
      (set_query ASK.init municipalities months year startEnd).2 := by
  cases st with
  | mk path q =>
    refine ⟨?_, rfl⟩
    simp only [set_query, clear_query, add_selection, ASK.init]
    split_ifs <;> rfl

/-- C5: municipality names that do not resolve through the registry are
returned as warnings and excluded from the selection; the query is built
from whatever resolved, and when nothing resolves (and no other filter is
given) it simply has zero selections — no error is possible since the
builder is total. -/
theorem unresolved_municipalities_excluded (st : ASK) (municipalities : List String) :
    (set_query st municipalities [] none none).2 =
      municipalities.filter (fun m => (get_municipality_code m).isNone) ∧
    (set_query st municipalities [] none none).1.query.query =
      (if municipalities.filterMap get_municipality_code ≠ [] then
        [⟨"Komuna", "item", municipalities.filterMap get_municipality_code⟩]
       else []) := by
  cases st with
  | mk path q =>
    refine ⟨rfl, ?_⟩
    simp only [set_query, clear_query, add_selection, List.append_nil, List.nil_append,
      ne_eq, not_true_eq_false, ite_false, if_false, eq_self_iff_true]
    split_ifs <;> rfl


/-! ### Order lemmas for the sort relation -/

theorem stringDataInj : ∀ {s t : String}, s.data = t.data → s = t
  | ⟨x⟩, ⟨y⟩, h => congrArg String.mk (by simpa using h)

theorem pyStrLeB_total : ∀ as bs : List Char, pyStrLeB as bs = true ∨ pyStrLeB bs as = true
  | [], _ => Or.inl rfl
  | _ :: _, [] => Or.inr rfl
  | a :: as, b :: bs => by
    simp only [pyStrLeB]
    rcases lt_trichotomy a b with h | h | h
    · left; rw [if_pos h]
    · subst h
      simp only [if_neg (lt_irrefl a)]
      exact pyStrLeB_total as bs
    · right; rw [if_pos h]

theorem pyStrLeB_trans : ∀ as bs cs : List Char,
    pyStrLeB as bs = true → pyStrLeB bs cs = true → pyStrLeB as cs = true
  | [], _, _ => fun _ _ => rfl
  | a :: as, [], _ => by intro h _; exact absurd h (by simp [pyStrLeB])
  | a :: as, b :: bs, [] => by intro _ h; exact absurd h (by simp [pyStrLeB])
  | a :: as, b :: bs, c :: cs => by
    simp only [pyStrLeB]
    intro h1 h2
    rcases lt_trichotomy a b with hab | hab | hab
    · rcases lt_trichotomy b c with hbc | hbc | hbc
      · rw [if_pos (lt_trans hab hbc)]
      · subst hbc; rw [if_pos hab]
      · rw [if_neg (lt_asymm hbc), if_pos hbc] at h2; exact absurd h2 (by simp)
    · subst hab
      rw [if_neg (lt_irrefl a), if_neg (lt_irrefl a)] at h1
      rcases lt_trichotomy a c with hac | hac | hac
      · rw [if_pos hac]
      · subst hac
        rw [if_neg (lt_irrefl a), if_neg (lt_irrefl a)] at h2 ⊢
        exact pyStrLeB_trans as bs cs h1 h2
      · rw [if_neg (lt_asymm hac), if_pos hac] at h2; exact absurd h2 (by simp)
    · rw [if_neg (lt_asymm hab), if_pos hab] at h1; exact absurd h1 (by simp)

theorem pyStrLeB_antisymm : ∀ as bs : List Char,
    pyStrLeB as bs = true → pyStrLeB bs as = true → as = bs
  | [], [] => fun _ _ => rfl
  | [], _ :: _ => fun _ h => absurd h (by simp [pyStrLeB])
  | _ :: _, [] => fun h _ => absurd h (by simp [pyStrLeB])
  | a :: as, b :: bs => by
    simp only [pyStrLeB]
    intro h1 h2
    rcases lt_trichotomy a b with hab | hab | hab
    · rw [if_neg (lt_asymm hab), if_pos hab] at h2; exact absurd h2 (by simp)
    · subst hab
      rw [if_neg (lt_irrefl a), if_neg (lt_irrefl a)] at h1 h2
      rw [pyStrLeB_antisymm as bs h1 h2]
    · rw [if_neg (lt_asymm hab), if_pos hab] at h1; exact absurd h1 (by simp)

theorem RecLE_total (a b : Rec) : RecLE a b ∨ RecLE b a := by
  simp only [RecLE, recLeB, strLeB, Bool.or_eq_true, Bool.and_eq_true,
    decide_eq_true_eq, beq_iff_eq]
  rcases lt_trichotomy a.date.1 b.date.1 with h | h | h
  · exact Or.inl (Or.inl h)
  · rcases lt_trichotomy a.date.2 b.date.2 with h2 | h2 | h2
    · exact Or.inl (Or.inr ⟨h, Or.inl h2⟩)
    · rcases pyStrLeB_total a.muni.data b.muni.data with h3 | h3
      · exact Or.inl (Or.inr ⟨h, Or.inr ⟨h2, h3⟩⟩)
      · exact Or.inr (Or.inr ⟨h.symm, Or.inr ⟨h2.symm, h3⟩⟩)
    · exact Or.inr (Or.inr ⟨h.symm, Or.inl h2⟩)
  · exact Or.inr (Or.inl h)

theorem RecLE_trans (a b c : Rec) (h1 : RecLE a b) (h2 : RecLE b c) : RecLE a c := by
  simp only [RecLE, recLeB, strLeB, Bool.or_eq_true, Bool.and_eq_true,
    decide_eq_true_eq, beq_iff_eq] at h1 h2 ⊢
  rcases h1 with h1 | ⟨e1, h1m⟩
  · rcases h2 with h2 | ⟨e2, _⟩
    · exact Or.inl (lt_trans h1 h2)
    · exact Or.inl (by omega)
  · rcases h2 with h2 | ⟨e2, h2m⟩
    · exact Or.inl (by omega)
    · refine Or.inr ⟨by omega, ?_⟩
      rcases h1m with h1m | ⟨em1, hs1⟩
      · rcases h2m with h2m | ⟨em2, _⟩
        · exact Or.inl (lt_trans h1m h2m)
        · exact Or.inl (by omega)
      · rcases h2m with h2m | ⟨em2, hs2⟩
        · exact Or.inl (by omega)
        · exact Or.inr ⟨by omega, pyStrLeB_trans _ _ _ hs1 hs2⟩

theorem RecLE_key_antisymm (a b : Rec) (h1 : RecLE a b) (h2 : RecLE b a) :
    a.date = b.date ∧ a.muni = b.muni := by
  simp only [RecLE, recLeB, strLeB, Bool.or_eq_true, Bool.and_eq_true,
    decide_eq_true_eq, beq_iff_eq] at h1 h2
  have hd1 : a.date.1 = b.date.1 := by
    rcases h1 with h1 | ⟨e1, _⟩ <;> rcases h2 with h2 | ⟨e2, _⟩ <;> omega
  have hd2 : a.date.2 = b.date.2 := by
    rcases h1 with h1 | ⟨e1, h1m⟩
    · omega
    · rcases h2 with h2 | ⟨e2, h2m⟩
      · omega
      · rcases h1m with h1m | ⟨em1, _⟩ <;> rcases h2m with h2m | ⟨em2, _⟩ <;> omega
  refine ⟨Prod.ext hd1 hd2, ?_⟩
  have hs1 : pyStrLeB a.muni.data b.muni.data = true := by
    rcases h1 with h1 | ⟨e1, h1m⟩
    · omega
    · rcases h1m with h1m | ⟨em1, hs⟩
      · omega
      · exact hs
  have hs2 : pyStrLeB b.muni.data a.muni.data = true := by
    rcases h2 with h2 | ⟨e2, h2m⟩
    · omega
    · rcases h2m with h2m | ⟨em2, hs⟩
      · omega
      · exact hs
  exact stringDataInj (pyStrLeB_antisymm _ _ hs1 hs2)


/-! ### Permutation lemmas for the pipeline stages -/

theorem mapE_ok_mem {α β : Type} (f : α → Except Err β) :
    ∀ {l : List α} {bs : List β}, mapE f l = .ok bs → ∀ a ∈ l, ∃ b, f a = .ok b := by
  intro l
  induction l with
  | nil => intro bs _ a ha; exact absurd ha (List.not_mem_nil a)
  | cons x t ih =>
    intro bs h a ha
    simp only [mapE] at h
    cases hfx : f x with
    | error e => rw [hfx] at h; exact absurd h (by simp)
    | ok b =>
      rw [hfx] at h
      cases hmt : mapE f t with
      | error e => rw [hmt] at h; exact absurd h (by simp)
      | ok bs' =>
        rcases List.mem_cons.mp ha with rfl | ha'
        · exact ⟨b, hfx⟩
        · exact ih hmt a ha'

theorem mapE_perm {α β : Type} (f : α → Except Err β) {l₁ l₂ : List α} (hp : l₁.Perm l₂) :
    ∀ {bs : List β}, mapE f l₁ = .ok bs → ∃ bs', mapE f l₂ = .ok bs' ∧ bs.Perm bs' := by
  induction hp with
  | nil => intro bs h; exact ⟨bs, h, List.Perm.refl bs⟩
  | cons x p ih =>
    intro bs h
    simp only [mapE] at h ⊢
    split at h
    · exact absurd h (by simp)
    · rename_i b hfx
      split at h
      · exact absurd h (by simp)
      · rename_i bs₁ hmt
        obtain ⟨bs₂, h₂, hp₂⟩ := ih hmt
        refine ⟨b :: bs₂, ?_, ?_⟩
        · simp only [hfx, h₂]
        · have hbs : bs = b :: bs₁ := by simpa using h.symm
          exact hbs ▸ hp₂.cons b
  | swap x y l =>
    intro bs h
    simp only [mapE] at h ⊢
    split at h
    · exact absurd h (by simp)
    · rename_i by' hfy
      split at h
      · exact absurd h (by simp)
      · rename_i bx hfx
        split at hfx
        · exact absurd hfx (by simp)
        · rename_i bx' hfx'
          split at hfx
          · exact absurd hfx (by simp)
          · rename_i bs₀ hml
            have hbx : bx = bx' :: bs₀ := by simpa using hfx.symm
            have hbs : bs = by' :: bx := by simpa using h.symm
            refine ⟨bx' :: by' :: bs₀, ?_, ?_⟩
            · simp only [hfx', hfy, hml]
            · rw [hbs, hbx]; exact List.Perm.swap bx' by' bs₀
  | trans p₁ p₂ ih₁ ih₂ =>
    intro bs h
    obtain ⟨bs₁, h₁, hp₁⟩ := ih₁ h
    obtain ⟨bs₂, h₂, hp₂⟩ := ih₂ h₁
    exact ⟨bs₂, h₂, hp₁.trans hp₂⟩

theorem eq_of_perm_sorted_antisymmOn {α : Type} {r : α → α → Prop} :
    ∀ {l₁ l₂ : List α}, l₁.Perm l₂ → l₁.Sorted r → l₂.Sorted r →
      (∀ a ∈ l₁, ∀ b ∈ l₁, r a b → r b a → a = b) → l₁ = l₂ := by
  intro l₁
  induction l₁ with
  | nil => intro l₂ hp _ _ _; exact hp.nil_eq
  | cons a t ih =>
    intro l₂ hp hs₁ hs₂ hanti
    cases l₂ with
    | nil => exact absurd hp.symm.nil_eq (by simp)
    | cons b t₂ =>
      have hab : a = b := by
        have ha2 : a ∈ b :: t₂ := hp.subset (List.mem_cons_self a t)
        have hb1 : b ∈ a :: t := hp.symm.subset (List.mem_cons_self b t₂)
        rcases List.mem_cons.mp ha2 with h | ha2'
        · exact h
        rcases List.mem_cons.mp hb1 with h | hb1'
        · exact h.symm
        have hra : r b a := (List.sorted_cons.mp hs₂).1 a ha2'
        have hrb : r a b := (List.sorted_cons.mp hs₁).1 b hb1'
        exact hanti a (List.mem_cons_self a t) b (List.mem_cons.mpr (Or.inr hb1')) hrb hra
      subst hab
      have hp' : t.Perm t₂ := hp.cons_inv
      have ht : t = t₂ :=
        ih hp' (List.sorted_cons.mp hs₁).2 (List.sorted_cons.mp hs₂).2
          (fun x hx y hy hxy hyx =>
            hanti x (List.mem_cons.mpr (Or.inr hx)) y (List.mem_cons.mpr (Or.inr hy)) hxy hyx)
      rw [ht]


/-! ### Claims about normalization (C2, C3, C7) -/

/-- C2 counterexample: the empty JSON response `{}` has no `'data'` key,
yet `get_data_as_df` returns `None` (the dict is falsy, so
`if not data: return None` fires) instead of failing with a
MalformedResponse error, so the claim as stated is false at this input.
No record set is returned either way. -/
theorem empty_response_returns_none :
    get_data_as_df (some ⟨none, false⟩) = none := rfl

/-- C2 (amended): for every fetched response dict without the `'data'` key,
`get_data_as_df` never returns a (partial or empty) record set: a NONEMPTY
dict fails with `KeyError('data')` — the MalformedResponse of the claim —
while the empty dict `{}` is swallowed by the falsiness guard
`if not data: return None` and yields an absent result instead. -/
theorem missing_data_key_fails (raw : RawResponse) (h : raw.data = none) :
    get_data_as_df (some raw) =
      (if raw.otherKeys then some (.error (.keyError "data")) else none) := by
  cases raw with
  | mk d o =>
    cases o <;> simp_all [get_data_as_df]

theorem missing_data_key_fails_witness :
    get_data_as_df (some ⟨none, true⟩) = some (.error (.keyError "data")) :=
  missing_data_key_fails ⟨none, true⟩ rfl

/-- C3: in the transformation loop, a raw value equal to the sentinel `":"`
yields a record with an absent count; any other raw value yields the
integer `int(...)` parses from it whenever the row is processed
successfully; and a row whose processing fails (in particular a
non-integer value, which `pyInt` rejects) makes the WHOLE normalization
fail — `normalize` never returns a record list that drops the row. -/
theorem sentinel_and_int_parsing :
    (∀ item r, processItem item = .ok r →
      (item.values[0]? = some ":" → r.marriages = none) ∧
      (∀ v, item.values[0]? = some v → v ≠ ":" →
        ∃ n, pyInt v = some n ∧ r.marriages = some n)) ∧
    (∀ items item, item ∈ items → (∀ r, processItem item ≠ .ok r) →
      ∀ recs, normalize items ≠ .ok recs) := by
  constructor
  · intro item r h
    simp only [processItem] at h
    split at h
    · exact absurd h (by simp)
    · rename_i date hk0
      split at h
      · exact absurd h (by simp)
      · rename_i code hk1
        split at h
        · exact absurd h (by simp)
        · rename_i v hv
          constructor
          · intro hv0
            rw [hv] at hv0
            have hveq : v = ":" := by simpa using hv0
            rw [if_pos hveq] at h
            have : r = ⟨date, code, municipalityName code, none⟩ := by simpa using h.symm
            rw [this]
          · intro v' hv' hne
            have hveq : v = v' := by rw [hv] at hv'; simpa using hv'
            subst hveq
            rw [if_neg hne] at h
            split at h
            · exact absurd h (by simp)
            · rename_i n hpi
              have : r = ⟨date, code, municipalityName code, some n⟩ := by simpa using h.symm
              exact ⟨n, hpi, by rw [this]⟩
  · intro items item hmem hfail recs hnorm
    simp only [normalize] at hnorm
    split at hnorm
    · exact absurd hnorm (by simp)
    · rename_i rows hrows
      obtain ⟨b, hb⟩ := mapE_ok_mem processItem hrows item hmem
      exact hfail b hb

theorem sentinel_and_int_parsing_witness :
    (⟨"2023M01", "18", "Prishtinë", none⟩ : Rec0).marriages = none ∧
    (∃ n, pyInt "42" = some n ∧
      (⟨"2023M01", "18", "Prishtinë", some 42⟩ : Rec0).marriages = some n) ∧
    normalize [⟨["2023M01", "18"], ["abc"]⟩] ≠ .ok [] := by
  refine ⟨?_, ?_, ?_⟩
  · exact (sentinel_and_int_parsing.1 ⟨["2023M01", "18"], [":"]⟩
      ⟨"2023M01", "18", "Prishtinë", none⟩ (by decide)).1 (by decide)
  · exact (sentinel_and_int_parsing.1 ⟨["2023M01", "18"], ["42"]⟩
      ⟨"2023M01", "18", "Prishtinë", some 42⟩ (by decide)).2 "42" (by decide) (by decide)
  · have hpe : processItem ⟨["2023M01", "18"], ["abc"]⟩ = .error .valueError := by decide
    exact sentinel_and_int_parsing.2 [⟨["2023M01", "18"], ["abc"]⟩]
      ⟨["2023M01", "18"], ["abc"]⟩ (List.mem_singleton_self _)
      (fun r hr => by rw [hpe] at hr; exact Except.noConfusion hr) []

/-- C7 counterexample: the claim says the normalized output is independent
of the ordering of rows in the source.  With two DISTINCT rows sharing the
same (date, municipality) sort key — a duplicate-key response — the stable
sort preserves source order among ties, so swapping the two rows swaps the
two output records: the two (permuted) row orderings normalize to
different sequences. -/
theorem normalize_order_dependent :
    normalize [⟨["2023M01", "18"], ["1"]⟩, ⟨["2023M01", "18"], ["2"]⟩] ≠
      normalize [⟨["2023M01", "18"], ["2"]⟩, ⟨["2023M01", "18"], ["1"]⟩] := by decide

/-- C7 (amended): every successful normalization result is sorted ascending
by (date, municipality display name); and the output is independent of the
ordering of the rows in the source — any permutation of the rows
normalizes to the very same record sequence — PROVIDED no two distinct
records share a (date, name) sort key (the counterexample shows the
duplicate-key case genuinely depends on source order).  Determinism over
the same raw response is immediate since `normalize` is a function. -/
theorem normalize_sorted_and_order_independent :
    (∀ items recs, normalize items = .ok recs → recs.Sorted RecLE) ∧
    (∀ items items' recs, normalize items = .ok recs → items'.Perm items →
      (∀ a ∈ recs, ∀ b ∈ recs, a.date = b.date → a.muni = b.muni → a = b) →
      normalize items' = .ok recs) := by
  haveI : IsTotal Rec RecLE := ⟨RecLE_total⟩
  haveI : IsTrans Rec RecLE := ⟨RecLE_trans⟩
  constructor
  · intro items recs h
    simp only [normalize] at h
    split at h
    · exact absurd h (by simp)
    · rename_i rows hrows
      split at h
      · exact absurd h (by simp)
      · split at h
        · exact absurd h (by simp)
        · rename_i recs0 hrecs0
          have hrecs : recs = List.insertionSort RecLE recs0 := by simpa using h.symm
          rw [hrecs]
          exact List.sorted_insertionSort RecLE recs0
  · intro items items' recs h hp hk
    simp only [normalize] at h ⊢
    split at h
    · exact absurd h (by simp)
    · rename_i rows hrows
      split at h
      · exact absurd h (by simp)
      · rename_i hne
        split at h
        · exact absurd h (by simp)
        · rename_i recs0 hrecs0
          have hrecs : recs = List.insertionSort RecLE recs0 := by simpa using h.symm
          obtain ⟨rows', hrows', hprow⟩ := mapE_perm processItem hp.symm hrows
          obtain ⟨recs0', hrecs0', hprecs⟩ := mapE_perm convertDate hprow hrecs0
          have hne' : ¬(rows'.isEmpty = true) := by
            intro hcon
            apply hne
            have hlen := hprow.length_eq
            cases rows' <;> cases rows <;> simp_all
          have hanti : ∀ a ∈ List.insertionSort RecLE recs0,
              ∀ b ∈ List.insertionSort RecLE recs0, RecLE a b → RecLE b a → a = b := by
            intro a ha b hb hab hba
            obtain ⟨hdate, hmuni⟩ := RecLE_key_antisymm a b hab hba
            exact hk a (hrecs ▸ ha) b (hrecs ▸ hb) hdate hmuni
          have hsorteq : List.insertionSort RecLE recs0 = List.insertionSort RecLE recs0' :=
            eq_of_perm_sorted_antisymmOn
              ((List.perm_insertionSort RecLE recs0).trans
                (hprecs.trans (List.perm_insertionSort RecLE recs0').symm))
              (List.sorted_insertionSort RecLE recs0)
              (List.sorted_insertionSort RecLE recs0')
              hanti
          rw [hrecs, hsorteq]
          simp [hrows', hne', hrecs0']


theorem normalize_sorted_and_order_independent_witness :
    List.Sorted RecLE
      [⟨(2023, 1), "19", "Prizren", none⟩, ⟨(2023, 2), "18", "Prishtinë", some 5⟩] ∧
    normalize [⟨["2023M01", "19"], [":"]⟩, ⟨["2023M02", "18"], ["5"]⟩] =
      .ok [⟨(2023, 1), "19", "Prizren", none⟩, ⟨(2023, 2), "18", "Prishtinë", some 5⟩] :=
  ⟨normalize_sorted_and_order_independent.1
      [⟨["2023M02", "18"], ["5"]⟩, ⟨["2023M01", "19"], [":"]⟩] _ (by decide),
    normalize_sorted_and_order_independent.2
      [⟨["2023M02", "18"], ["5"]⟩, ⟨["2023M01", "19"], [":"]⟩]
      [⟨["2023M01", "19"], [":"]⟩, ⟨["2023M02", "18"], ["5"]⟩] _ (by decide)
      (List.Perm.swap _ _ _) (by decide)⟩

end AskApi
